import Mathlib

/-!
# Verification of the `dials_algorithms_integration_ext` module registrar

Shallow embedding of `src/algorithms/integration/boost_python/integration_ext.cc`.
The source file declares four registration sub-procedures
(`export_luiso_s_2d_integration`, `export_summation`,
`export_summation_reciprocal_space`, `export_profile_fitting_reciprocal_space`)
and a module-initialization entry point
`BOOST_PYTHON_MODULE(dials_algorithms_integration_ext)` whose body calls the
four sub-procedures in sequence.  The bodies of the four sub-procedures are not
part of the supplied source; their effect on the host capability table is
modelled from the spec, as flagged on each such definition.
-/

namespace DialsIntegrationExt

/-- The four registration sub-procedures declared in `integration_ext.cc`
(lines 18 to 21). -/
inductive ExportProc where
  | export_luiso_s_2d_integration
  | export_summation
  | export_summation_reciprocal_space
  | export_profile_fitting_reciprocal_space
deriving DecidableEq

/-- Modelled from the spec: the bodies of the four export routines are not in
the supplied source.  Per spec section 3 and 6, each routine installs exactly
one named capability; the stable string identifier is the routine's name
without its `export_` prefix (e.g. `"luiso_s_2d_integration"`,
`"summation"`, `"summation_reciprocal_space"`,
`"profile_fitting_reciprocal_space"`). -/
def exportName : ExportProc → String
  | .export_luiso_s_2d_integration => "luiso_s_2d_integration"
  | .export_summation => "summation"
  | .export_summation_reciprocal_space => "summation_reciprocal_space"
  | .export_profile_fitting_reciprocal_space => "profile_fitting_reciprocal_space"

/-- Modelled from the spec: the host capability table is not in the supplied
source.  Spec section 6: a registration routine must "install exactly one
named entry; fail with a load error if the name is already taken".  The
result is the error (the offending name), if any, together with the table
afterwards; on failure the table is untouched, on success the entry is
appended (spec section 3: registration order is insertion order). -/
def registerCapability (name : String) (table : List String) :
    Option String × List String :=
  if name ∈ table then (some name, table) else (none, table ++ [name])

/-- Modelled from the spec (for the step semantics; the call sequencing is the
source's): run a list of export calls in order against the table.  Each call
registers its capability name; a failure propagates to the caller, so calls
after a failing one are not attempted.  Returns the error (if any), the final
table, and the list of calls actually attempted, in order. -/
def runExports : List ExportProc → List String →
    Option String × List String × List ExportProc
  | [], table => (none, table, [])
  | p :: rest, table =>
    if exportName p ∈ table then
      (some (exportName p), table, [p])
    else
      let r := runExports rest (table ++ [exportName p])
      (r.1, r.2.1, p :: r.2.2)

/-- The body of `BOOST_PYTHON_MODULE(dials_algorithms_integration_ext)`
(`integration_ext.cc` lines 25 to 28): the four export calls in source
order. -/
def moduleInitCalls : List ExportProc :=
  [ExportProc.export_luiso_s_2d_integration,
   ExportProc.export_summation,
   ExportProc.export_summation_reciprocal_space,
   ExportProc.export_profile_fitting_reciprocal_space]

/-- The module-initialization entry point: invoke the four registration
sub-procedures in the fixed source order against the current capability
table. -/
def moduleInit (table : List String) :
    Option String × List String × List ExportProc :=
  runExports moduleInitCalls table

/-- The capability identifiers registered by a successful fresh load, in
insertion order. -/
def capabilityNames : List String := moduleInitCalls.map exportName

/-- Modelled from the spec: invoking a registered capability (spec section 8,
"call") dispatches by looking the name up in the capability table; it
succeeds exactly when the identifier is registered and does not modify the
table. -/
def callCapability (table : List String) (name : String) : Bool :=
  table.contains name

/-- Modelled from the spec: the operations the host process can perform after
the module is first loaded — re-invoke the load entry point, or call a named
capability. -/
inductive HostOp where
  | load
  | call (name : String)

/-- Modelled from the spec: the effect of a host operation on the capability
table.  A load re-runs the entry point on the current table; a capability
call reads the table without modifying it. -/
def applyOp (table : List String) : HostOp → List String
  | HostOp.load => (moduleInit table).2.1
  | HostOp.call _ => table

/-- Sanity example: a fresh load succeeds and installs the four names. -/
example : (moduleInit []).1 = none := by decide

/-- C1: the module-initialization entry point, when invoked, attempts exactly
the four registration sub-procedures — 2D integration, summation,
reciprocal-space summation, reciprocal-space profile fitting — each exactly
once, in that fixed order. -/
theorem moduleInit_calls_four_in_order :
    (moduleInit []).2.2 = moduleInitCalls ∧
    moduleInitCalls =
      [ExportProc.export_luiso_s_2d_integration,
       ExportProc.export_summation,
       ExportProc.export_summation_reciprocal_space,
       ExportProc.export_profile_fitting_reciprocal_space] ∧
    ∀ p : ExportProc, moduleInitCalls.count p = 1 := by
  refine ⟨by decide, rfl, ?_⟩
  intro p
  cases p <;> decide

/-- C2: after a successful fresh invocation of the entry point, the capability
table contains exactly four identifiers, one per registration sub-procedure,
no more and no fewer. -/
theorem moduleInit_table_complete :
    (moduleInit []).1 = none ∧
    (moduleInit []).2.1.length = 4 ∧
    (moduleInit []).2.1 = moduleInitCalls.map exportName ∧
    (moduleInit []).2.1.Nodup ∧
    ∀ p : ExportProc, exportName p ∈ (moduleInit []).2.1 := by
  refine ⟨by decide, by decide, by decide, by decide, ?_⟩
  intro p
  cases p <;> decide

/-- C4: invoking the entry point a second time in the same process fails with
an explicit already-registered condition (the first capability name is
reported as taken), leaves the capability table unchanged — the same four
entries in the same order — and never produces duplicate entries. -/
theorem moduleInit_second_invocation_fails_explicitly :
    (moduleInit ((moduleInit []).2.1)).1 = some "luiso_s_2d_integration" ∧
    (moduleInit ((moduleInit []).2.1)).2.1 = (moduleInit []).2.1 ∧
    (moduleInit ((moduleInit []).2.1)).2.1.length = 4 ∧
    (moduleInit ((moduleInit []).2.1)).2.1.Nodup := by
  refine ⟨by decide, by decide, by decide, by decide⟩

/-- C8 counterexample: after a fresh load the capability table's name list is
not the spec's claimed list — its first identifier is
`"luiso_s_2d_integration"`, not `"2d_integration"`. -/
theorem moduleInit_names_not_spec_list :
    (moduleInit []).2.1 ≠
      ["2d_integration", "summation", "summation_reciprocal_space",
       "profile_fitting_reciprocal_space"] := by
  decide

/-- C8 amended: after a fresh load the capability table's name list is exactly
`["luiso_s_2d_integration", "summation", "summation_reciprocal_space",
"profile_fitting_reciprocal_space"]`, its size is 4, and a subsequent call to
the `"summation"` capability dispatches without error. -/
theorem moduleInit_names_amended :
    (moduleInit []).2.1 =
      ["luiso_s_2d_integration", "summation", "summation_reciprocal_space",
       "profile_fitting_reciprocal_space"] ∧
    (moduleInit []).2.1.length = 4 ∧
    callCapability (moduleInit []).2.1 "summation" = true := by
  refine ⟨by decide, by decide, by decide⟩

/-- Helper: a run of export calls preserves distinctness of the table's
identifiers. -/
theorem runExports_nodup :
    ∀ (calls : List ExportProc) (t : List String), t.Nodup →
      ((runExports calls t).2.1).Nodup
  | [], _, h => h
  | p :: rest, t, h => by
    by_cases hm : exportName p ∈ t
    · simpa [runExports, hm] using h
    · have h2 : (t ++ [exportName p]).Nodup := by
        simp [List.nodup_append, h, hm]
      simpa [runExports, hm] using
        runExports_nodup rest (t ++ [exportName p]) h2

/-- Helper: when a run of export calls fails, the failure happened at some
call k; the calls after the k-th were not attempted, and the table holds the
prior entries followed by the entries installed by the first k successful
calls — nothing was rolled back. -/
theorem runExports_failure_spec :
    ∀ (calls : List ExportProc) (t : List String) (e : String),
      (runExports calls t).1 = some e →
      ∃ k, k < calls.length ∧
        (runExports calls t).2.2 = calls.take (k + 1) ∧
        (runExports calls t).2.1 = t ++ (calls.take k).map exportName
  | [], t, e, h => by simp [runExports] at h
  | p :: rest, t, e, h => by
    by_cases hm : exportName p ∈ t
    · exact ⟨0, by simp, by simp [runExports, hm], by simp [runExports, hm]⟩
    · have h' : (runExports rest (t ++ [exportName p])).1 = some e := by
        simpa [runExports, hm] using h
      obtain ⟨k, hk, htr, htb⟩ :=
        runExports_failure_spec rest (t ++ [exportName p]) e h'
      refine ⟨k + 1, by simpa using Nat.succ_lt_succ hk, ?_, ?_⟩
      · simp [runExports, hm, htr]
      · simp [runExports, hm, htb]

/-- C3 counterexample: a load during which a registration fails (here the
third capability is forced to fail, its name being already taken in the host
table) does not leave the capability table with zero entries: the table keeps
three entries after the failed load. -/
theorem moduleInit_failure_not_atomic :
    (moduleInit ["summation_reciprocal_space"]).1 =
      some "summation_reciprocal_space" ∧
    (moduleInit ["summation_reciprocal_space"]).2.1 ≠ [] ∧
    (moduleInit ["summation_reciprocal_space"]).2.1.length = 3 := by
  refine ⟨by decide, by decide, by decide⟩

/-- C3 amended: if a registration fails (here the third capability is forced
to fail by an injected duplicate of its name), the load fails — an error is
reported and the registrations after the failing one are not attempted — but
the entries installed by the earlier registrations remain in the table; no
rollback to an empty table takes place. -/
theorem moduleInit_failure_keeps_earlier_entries :
    (moduleInit ["summation_reciprocal_space"]).1 =
      some "summation_reciprocal_space" ∧
    (moduleInit ["summation_reciprocal_space"]).2.2 =
      moduleInitCalls.take 3 ∧
    (moduleInit ["summation_reciprocal_space"]).2.1 =
      ["summation_reciprocal_space"] ++
        (moduleInitCalls.take 2).map exportName := by
  refine ⟨by decide, by decide, by decide⟩

/-- C6: the identifiers in the capability table are pairwise distinct at
every point during and after registration — every registration step preserves
distinctness, and a successful step installs exactly one named entry. -/
theorem registration_preserves_uniqueness (calls : List ExportProc)
    (t : List String) (h : t.Nodup) :
    ((runExports calls t).2.1).Nodup ∧
    ∀ name, ((registerCapability name t).2).Nodup ∧
      ((registerCapability name t).1 = none →
        (registerCapability name t).2.length = t.length + 1) := by
  refine ⟨runExports_nodup calls t h, ?_⟩
  intro name
  by_cases hm : name ∈ t
  · simp [registerCapability, hm, h]
  · refine ⟨by simp [registerCapability, hm, List.nodup_append, h], ?_⟩
    intro _
    simp [registerCapability, hm]

/-- C6 witness: the invariant instantiated at the fresh table and the actual
registration sequence of the module. -/
theorem registration_preserves_uniqueness_witness :
    (([] : List String)).Nodup ∧
    (((runExports moduleInitCalls []).2.1).Nodup ∧
      ∀ name, ((registerCapability name []).2).Nodup ∧
        ((registerCapability name []).1 = none →
          (registerCapability name []).2.length =
            ([] : List String).length + 1)) :=
  ⟨List.nodup_nil,
    registration_preserves_uniqueness moduleInitCalls [] List.nodup_nil⟩

/-- C7: registration is deterministic — any two successful fresh loads yield
capability tables with the same identifiers in the same insertion order,
namely the fixed list of the four capability names. -/
theorem moduleInit_deterministic
    (r₁ r₂ : Option String × List String × List ExportProc)
    (h₁ : r₁ = moduleInit []) (h₂ : r₂ = moduleInit [])
    (s₁ : r₁.1 = none) (s₂ : r₂.1 = none) :
    r₁.2.1 = r₂.2.1 ∧ r₁.2.1 = capabilityNames := by
  subst h₁; subst h₂
  exact ⟨rfl, by decide⟩

/-- C7 witness: two concrete fresh loads agree and produce the fixed name
list. -/
theorem moduleInit_deterministic_witness :
    moduleInit [] = moduleInit [] ∧ (moduleInit []).1 = none ∧
    ((moduleInit []).2.1 = (moduleInit []).2.1 ∧
      (moduleInit []).2.1 = capabilityNames) :=
  ⟨rfl, by decide,
    moduleInit_deterministic (moduleInit []) (moduleInit []) rfl rfl
      (by decide) (by decide)⟩

/-- Helper: every host operation leaves the fully populated capability table
unchanged — a capability call only reads it, and a repeated load fails at its
first registration without modifying it. -/
theorem applyOp_fixes_table (op : HostOp) :
    applyOp capabilityNames op = capabilityNames := by
  cases op with
  | load => decide
  | call name => rfl

/-- C5: the capability table is written once, at module-load time, and never
mutated afterward — after the entry point completes on a fresh process, any
sequence of host operations (capability calls, repeated loads) leaves the
table's contents and order unchanged. -/
theorem capabilityTable_immutable_after_load (ops : List HostOp) :
    List.foldl applyOp (moduleInit []).2.1 ops = (moduleInit []).2.1 := by
  have hbase : (moduleInit []).2.1 = capabilityNames := by decide
  rw [hbase]
  induction ops with
  | nil => rfl
  | cons op rest ih => rw [List.foldl_cons, applyOp_fixes_table op, ih]

/-- C10: if the k-th registration call fails, the calls after the k-th are
not attempted, and the entries installed by the earlier registrations are not
removed — the entry point performs no rollback. -/
theorem moduleInit_no_rollback (t : List String) (e : String)
    (h : (moduleInit t).1 = some e) :
    ∃ k, k < moduleInitCalls.length ∧
      (moduleInit t).2.2 = moduleInitCalls.take (k + 1) ∧
      (moduleInit t).2.1 = t ++ (moduleInitCalls.take k).map exportName :=
  runExports_failure_spec moduleInitCalls t e h

/-- C10 witness: with the name of the second capability already taken, the
load fails at the second call, the first capability's entry remains, and the
last two calls are not attempted. -/
theorem moduleInit_no_rollback_witness :
    (moduleInit ["summation"]).1 = some "summation" ∧
    ∃ k, k < moduleInitCalls.length ∧
      (moduleInit ["summation"]).2.2 = moduleInitCalls.take (k + 1) ∧
      (moduleInit ["summation"]).2.1 =
        ["summation"] ++ (moduleInitCalls.take k).map exportName :=
  ⟨by decide, moduleInit_no_rollback ["summation"] "summation" (by decide)⟩

end DialsIntegrationExt
